import Mathlib

/-!
Shallow embedding of the dual-region byte-range cache of
`src/extras/volume_id/volume_id/util.c` (`volume_id_get_buffer`,
`volume_id_free_buffer`), together with theorems settling the frozen
claims about it.

Modelling conventions:
* `off` has C type `__u64`, `len` has C type `unsigned int`; machine
  arithmetic on them is made explicit with `% U64` / `% U32` exactly where
  the C performs 64-bit/32-bit operations.
* `read(2)` returning `-1` (an I/O error) and then being stored into the
  `unsigned int buf_len` is modelled by the value `UINT_MAX`, the result of
  converting `-1` to `unsigned int`.
* The byte source (`id->fd`) is modelled by a `Src` record giving the
  outcome of `lseek`, of `read` (indexed by the offset passed to the
  `lseek` immediately before it), and of `malloc`.
* `SB_BUFFER_SIZE` and `SEEK_BUFFER_SIZE` are defined in a header that is
  not part of the sources; following the spec they are kept as parameters
  (`SB`, `SEEKB`) that are positive configuration constants.
-/

namespace VolumeIdCache

/-- Modulus of the C type `__u64`. -/
def U64 : Nat := 2 ^ 64

/-- Modulus of the C type `unsigned int`. -/
def U32 : Nat := 2 ^ 32

/-- The value obtained by converting `(ssize_t)(-1)` to `unsigned int`,
which is what `unsigned int buf_len = read(...)` stores when `read` fails. -/
def UINT_MAX : Nat := U32 - 1

/-- The cache-relevant fields of `struct volume_id`: the superblock (front)
buffer and its valid length, and the seek (window) buffer with its absolute
offset and valid length.  A buffer is `none` when the C pointer is `NULL`;
an allocated buffer is the list of its bytes (length = its capacity). -/
structure VolumeId where
  sbbuf : Option (List Nat)
  sbbuf_len : Nat
  seekbuf : Option (List Nat)
  seekbuf_off : Nat
  seekbuf_len : Nat
deriving DecidableEq

/-- A physical I/O operation issued against the source:
`seek pos` models `lseek(fd, pos, SEEK_SET)`, `readReq pos n` models a
`read(fd, buf, n)` performed while the file offset is expected at `pos`. -/
inductive IoOp where
  | seek (pos : Nat)
  | readReq (pos n : Nat)
deriving DecidableEq

/-- Which cache region a returned view points into. -/
inductive Region where
  | front
  | window
deriving DecidableEq

/-- The error kinds of the spec; the C function returns `NULL` in each case,
and the kind identifies the `return NULL` site taken. -/
inductive CacheError where
  | allocationFailed
  | ioFailure
  | insufficientData
  | requestTooLarge
deriving DecidableEq

/-- A borrowed view: which region buffer the returned pointer points into,
and the index of its first byte inside that buffer (`&buf[start]`). -/
structure ViewRes where
  region : Region
  start : Nat
deriving DecidableEq

/-- Behaviour of the external byte source and the allocator:
`seekOk pos` is whether `lseek(fd, pos, SEEK_SET)` succeeds; `readAt pos n`
is `none` when `read` reports an error and `some bs` when it transfers the
bytes `bs` (possibly fewer than `n`); `mallocOk` is whether `malloc`
succeeds. -/
structure Src where
  seekOk : Nat → Bool
  readAt : Nat → Nat → Option (List Nat)
  mallocOk : Bool

instance {ε α : Type} [DecidableEq ε] [DecidableEq α] : DecidableEq (Except ε α) := fun x y =>
  match x, y with
  | Except.ok a, Except.ok b =>
    if h : a = b then isTrue (by rw [h]) else isFalse (by intro hc; cases hc; exact h rfl)
  | Except.ok _, Except.error _ => isFalse (by intro hc; cases hc)
  | Except.error _, Except.ok _ => isFalse (by intro hc; cases hc)
  | Except.error e, Except.error f =>
    if h : e = f then isTrue (by rw [h]) else isFalse (by intro hc; cases hc; exact h rfl)

/-- Effect of `read` writing `bs` into the start of buffer `buf`. -/
def overwrite (buf bs : List Nat) : List Nat := bs ++ buf.drop bs.length

/-- Result of one `volume_id_get_buffer` call: the returned pointer (or the
error kind of the `NULL` return), the updated `struct volume_id` state, and
the trace of physical I/O operations issued. -/
abbrev CallRes := Except CacheError ViewRes × VolumeId × List IoOp

/-- Lines 200-211 of util.c: the front-cache read-if-needed step, entered
with `id->sbbuf` already allocated.  The result of `lseek(fd, 0, SEEK_SET)`
is ignored by the C code, so only the trace records it. -/
def sbbuf_refill (e : Src) (st : VolumeId) (off len : Nat) : CallRes :=
  if (off + len) % U64 > st.sbbuf_len then
    let n := (off + len) % U64
    let tr := [IoOp.seek 0, IoOp.readReq 0 n]
    match e.readAt 0 n with
    | none =>
      let st' := { st with sbbuf_len := UINT_MAX }
      if UINT_MAX < n then (Except.error CacheError.insufficientData, st', tr)
      else (Except.ok ⟨Region.front, off⟩, st', tr)
    | some bs =>
      let bl := bs.length % U32
      let st' := { st with sbbuf := st.sbbuf.map (fun b => overwrite b bs), sbbuf_len := bl }
      if bl < n then (Except.error CacheError.insufficientData, st', tr)
      else (Except.ok ⟨Region.front, off⟩, st', tr)
  else (Except.ok ⟨Region.front, off⟩, st, [])

/-- Lines 194-211 of util.c: the front-cache (superblock buffer) branch,
taken when `off + len <= SB_BUFFER_SIZE`. -/
def sbbuf_service (e : Src) (SB : Nat) (st : VolumeId) (off len : Nat) : CallRes :=
  match st.sbbuf with
  | none =>
    if e.mallocOk then
      sbbuf_refill e { st with sbbuf := some (List.replicate SB 0) } off len
    else (Except.error CacheError.allocationFailed, st, [])
  | some _ => sbbuf_refill e st off len

/-- Lines 225-240 of util.c: the window-cache read-if-needed step, entered
with `id->seekbuf` already allocated.  Note that on the read path the C code
updates `seekbuf_off` and `seekbuf_len` before checking `buf_len < len`. -/
def seekbuf_refill (e : Src) (st : VolumeId) (off len : Nat) : CallRes :=
  if off < st.seekbuf_off ∨ (off + len) % U64 > (st.seekbuf_off + st.seekbuf_len) % U64 then
    if e.seekOk off then
      let tr := [IoOp.seek off, IoOp.readReq off len]
      match e.readAt off len with
      | none =>
        let st' := { st with seekbuf_off := off, seekbuf_len := UINT_MAX }
        if UINT_MAX < len then (Except.error CacheError.insufficientData, st', tr)
        else (Except.ok ⟨Region.window, off - st'.seekbuf_off⟩, st', tr)
      | some bs =>
        let bl := bs.length % U32
        let st' := { st with seekbuf := st.seekbuf.map (fun b => overwrite b bs),
                             seekbuf_off := off, seekbuf_len := bl }
        if bl < len then (Except.error CacheError.insufficientData, st', tr)
        else (Except.ok ⟨Region.window, off - st'.seekbuf_off⟩, st', tr)
    else (Except.error CacheError.ioFailure, st, [IoOp.seek off])
  else (Except.ok ⟨Region.window, off - st.seekbuf_off⟩, st, [])

/-- Lines 213-240 of util.c: the window-cache (seek buffer) branch, taken
when `off + len > SB_BUFFER_SIZE`. -/
def seekbuf_service (e : Src) (SEEKB : Nat) (st : VolumeId) (off len : Nat) : CallRes :=
  if len > SEEKB then (Except.error CacheError.requestTooLarge, st, [])
  else
    match st.seekbuf with
    | none =>
      if e.mallocOk then
        seekbuf_refill e { st with seekbuf := some (List.replicate SEEKB 0) } off len
      else (Except.error CacheError.allocationFailed, st, [])
    | some _ => seekbuf_refill e st off len

/-- `volume_id_get_buffer` (util.c lines 187-242): dispatch on
`off + len <= SB_BUFFER_SIZE`, computed in `__u64` arithmetic. -/
def volume_id_get_buffer (e : Src) (SB SEEKB : Nat) (st : VolumeId) (off len : Nat) : CallRes :=
  if (off + len) % U64 ≤ SB then sbbuf_service e SB st off len
  else seekbuf_service e SEEKB st off len

/-- `volume_id_free_buffer` (util.c lines 244-256): free each buffer and
zero its valid length, each only when that buffer is non-NULL. -/
def volume_id_free_buffer (st : VolumeId) : VolumeId :=
  let st1 :=
    match st.sbbuf with
    | some _ => { st with sbbuf := none, sbbuf_len := 0 }
    | none => st
  match st1.seekbuf with
  | some _ => { st1 with seekbuf := none, seekbuf_len := 0 }
  | none => st1

/-- Modelled from the spec: a fresh `CacheState` (created by
`volume_id_open_*`, which is not among the sources) has both buffers
unallocated and both valid lengths zero (spec section 3, `CacheState`). -/
def initId : VolumeId := ⟨none, 0, none, 0, 0⟩

/-- An in-memory reference source holding the byte list `data`: seeks always
succeed, `read` never errors and transfers `min n (data.length - pos)`
bytes from position `pos`, and allocation succeeds. -/
def pureSrc (data : List Nat) : Src where
  seekOk := fun _ => true
  readAt := fun pos n => some ((data.drop pos).take n)
  mallocOk := true

/-- A source whose every `read` reports an I/O error (`read` returns `-1`),
while seeks and allocation succeed. -/
def errReadSrc : Src where
  seekOk := fun _ => true
  readAt := fun _ _ => none
  mallocOk := true

/-- The `len` bytes a returned view designates, read out of the state the
call returned (the bytes behind the borrowed pointer at return time). -/
def viewBytes (st : VolumeId) (v : ViewRes) (len : Nat) : List Nat :=
  match v.region with
  | Region.front => ((st.sbbuf.getD []).drop v.start).take len
  | Region.window => ((st.seekbuf.getD []).drop v.start).take len

/-- Run a sequence of `volume_id_get_buffer` calls, returning the final
state and, per call, the view's bytes (or `none` on failure) together with
the trace of physical I/O the call issued. -/
def runCalls (e : Src) (SB SEEKB : Nat) :
    List (Nat × Nat) → VolumeId → VolumeId × List (Option (List Nat) × List IoOp)
  | [], st => (st, [])
  | (off, len) :: rest, st =>
    let r := volume_id_get_buffer e SB SEEKB st off len
    let o := match r.1 with
      | Except.ok v => some (viewBytes r.2.1 v len)
      | Except.error _ => none
    let tail := runCalls e SB SEEKB rest r.2.1
    (tail.1, (o, r.2.2) :: tail.2)

/-- Cache-state invariant with respect to a reference source `data`, for
configured capacities `SB` and `SEEKB`.  All reachable states of a session
against the in-memory source satisfy it. -/
structure Inv (SB SEEKB : Nat) (data : List Nat) (st : VolumeId) : Prop where
  sb_size : ∀ b, st.sbbuf = some b → b.length = SB
  sb_none : st.sbbuf = none → st.sbbuf_len = 0
  sb_le_cap : st.sbbuf_len ≤ SB
  sb_le_data : st.sbbuf_len ≤ data.length
  sb_good : ∀ b, st.sbbuf = some b → b.take st.sbbuf_len = data.take st.sbbuf_len
  sk_size : ∀ b, st.seekbuf = some b → b.length = SEEKB
  sk_none : st.seekbuf = none → st.seekbuf_len = 0
  sk_le_cap : st.seekbuf_len ≤ SEEKB
  sk_le_data : st.seekbuf_len ≤ data.length - st.seekbuf_off
  sk_good : ∀ b, st.seekbuf = some b →
    b.take st.seekbuf_len = (data.drop st.seekbuf_off).take st.seekbuf_len
  sk_off_lt : st.seekbuf_off < U64

/-- A call output is a correct round-trip for its request: if it succeeded,
its bytes are exactly the requested slice of the reference source and there
are exactly `len` of them. -/
def sliceOk (data : List Nat) (req : Nat × Nat) (out : Option (List Nat) × List IoOp) : Prop :=
  ∀ bs, out.1 = some bs → bs = (data.drop req.1).take req.2 ∧ bs.length = req.2

/-- Representation invariant actually needed by `volume_id_free_buffer`:
an unallocated (NULL) buffer has valid length 0.  It holds in the initial
state and is preserved by every operation. -/
def CacheInv (st : VolumeId) : Prop :=
  (st.sbbuf = none → st.sbbuf_len = 0) ∧ (st.seekbuf = none → st.seekbuf_len = 0)

end VolumeIdCache

namespace VolumeIdCache

/-- Two lists that agree on their first `k` entries have equal sub-slices
drawn from those entries. -/
theorem slice_agree {b c : List Nat} {k : Nat} (h : b.take k = c.take k)
    {off len : Nat} (hlt : off + len ≤ k) :
    (b.drop off).take len = (c.drop off).take len := by
  have hb : ((b.take k).drop off).take len = (b.drop off).take len := by
    rw [List.drop_take, List.take_take, Nat.min_eq_left (by omega)]
  have hc : ((c.take k).drop off).take len = (c.drop off).take len := by
    rw [List.drop_take, List.take_take, Nat.min_eq_left (by omega)]
  rw [← hb, ← hc, h]

/-- A sub-slice drawn inside a list's extent has exactly the requested
length. -/
theorem slice_len {b : List Nat} {off len : Nat} (h : off + len ≤ b.length) :
    ((b.drop off).take len).length = len := by
  rw [List.length_take, List.length_drop]
  omega

/-- Overwriting a prefix of a buffer does not change its capacity. -/
theorem overwrite_length {buf bs : List Nat} (h : bs.length ≤ buf.length) :
    (overwrite buf bs).length = buf.length := by
  simp [overwrite]
  omega

/-- The overwritten bytes are at the front of the overwritten buffer. -/
theorem overwrite_take (buf bs : List Nat) :
    (overwrite buf bs).take bs.length = bs := by
  simp [overwrite, List.take_append_of_le_length (Nat.le_refl _)]

end VolumeIdCache

namespace VolumeIdCache

/-- When the requested front range is already within the valid front bytes,
`volume_id_get_buffer`'s front step returns at once without touching the
state or the source. -/
theorem sbbuf_refill_covered (e : Src) (st : VolumeId) (off len : Nat)
    (h : (off + len) % U64 ≤ st.sbbuf_len) :
    sbbuf_refill e st off len = (Except.ok ⟨Region.front, off⟩, st, []) := by
  unfold sbbuf_refill
  rw [if_neg (by omega)]

/-- Behaviour of the front refill against the in-memory source: seek to 0,
read `(off+len) mod 2^64` bytes, store the transferred count, and fail
exactly when fewer bytes than requested arrived. -/
theorem sbbuf_refill_read (data : List Nat) (st : VolumeId) (off len : Nat)
    (h : st.sbbuf_len < (off + len) % U64) :
    sbbuf_refill (pureSrc data) st off len =
      (if (data.take ((off + len) % U64)).length % U32 < (off + len) % U64
         then Except.error CacheError.insufficientData
         else Except.ok ⟨Region.front, off⟩,
       { st with sbbuf := st.sbbuf.map (fun b => overwrite b (data.take ((off + len) % U64))),
                 sbbuf_len := (data.take ((off + len) % U64)).length % U32 },
       [IoOp.seek 0, IoOp.readReq 0 ((off + len) % U64)]) := by
  unfold sbbuf_refill
  rw [if_pos h]
  simp only [pureSrc, List.drop_zero]
  split <;> rfl

/-- When the requested window range is already covered (in the sense of the
C comparisons), the window step returns at once without touching the state
or the source. -/
theorem seekbuf_refill_covered (e : Src) (st : VolumeId) (off len : Nat)
    (h1 : st.seekbuf_off ≤ off)
    (h2 : (off + len) % U64 ≤ (st.seekbuf_off + st.seekbuf_len) % U64) :
    seekbuf_refill e st off len =
      (Except.ok ⟨Region.window, off - st.seekbuf_off⟩, st, []) := by
  unfold seekbuf_refill
  rw [if_neg (by push_neg; exact ⟨by omega, by omega⟩)]

/-- Behaviour of the window refill against the in-memory source: seek to
`off`, read `len` bytes, move the window to `off` with the transferred
count as its valid length, and fail exactly when fewer than `len` bytes
arrived. -/
theorem seekbuf_refill_read (data : List Nat) (st : VolumeId) (off len : Nat)
    (h : off < st.seekbuf_off ∨ (st.seekbuf_off + st.seekbuf_len) % U64 < (off + len) % U64) :
    seekbuf_refill (pureSrc data) st off len =
      (if ((data.drop off).take len).length % U32 < len
         then Except.error CacheError.insufficientData
         else Except.ok ⟨Region.window, 0⟩,
       { st with seekbuf := st.seekbuf.map (fun b => overwrite b ((data.drop off).take len)),
                 seekbuf_off := off, seekbuf_len := ((data.drop off).take len).length % U32 },
       [IoOp.seek off, IoOp.readReq off len]) := by
  unfold seekbuf_refill
  rw [if_pos (by omega)]
  simp only [pureSrc, Nat.sub_self, if_true]
  split <;> rfl

end VolumeIdCache

namespace VolumeIdCache

/-- With the front buffer already allocated, the front branch is exactly the
read-if-needed step. -/
theorem sbbuf_service_some (e : Src) (SB : Nat) (st : VolumeId) (off len : Nat)
    (b : List Nat) (hb : st.sbbuf = some b) :
    sbbuf_service e SB st off len = sbbuf_refill e st off len := by
  unfold sbbuf_service
  rw [hb]

/-- With the front buffer unallocated and `malloc` succeeding, the front
branch first allocates `SB_BUFFER_SIZE` bytes. -/
theorem sbbuf_service_none (e : Src) (SB : Nat) (st : VolumeId) (off len : Nat)
    (hb : st.sbbuf = none) (hm : e.mallocOk = true) :
    sbbuf_service e SB st off len =
      sbbuf_refill e { st with sbbuf := some (List.replicate SB 0) } off len := by
  unfold sbbuf_service
  rw [hb, hm]
  rfl

/-- With the window buffer already allocated and the request not too large,
the window branch is exactly the read-if-needed step. -/
theorem seekbuf_service_some (e : Src) (SEEKB : Nat) (st : VolumeId) (off len : Nat)
    (b : List Nat) (hb : st.seekbuf = some b) (hlen : len ≤ SEEKB) :
    seekbuf_service e SEEKB st off len = seekbuf_refill e st off len := by
  unfold seekbuf_service
  rw [if_neg (by omega), hb]

/-- With the window buffer unallocated, the request not too large, and
`malloc` succeeding, the window branch first allocates `SEEK_BUFFER_SIZE`
bytes. -/
theorem seekbuf_service_none (e : Src) (SEEKB : Nat) (st : VolumeId) (off len : Nat)
    (hb : st.seekbuf = none) (hm : e.mallocOk = true) (hlen : len ≤ SEEKB) :
    seekbuf_service e SEEKB st off len =
      seekbuf_refill e { st with seekbuf := some (List.replicate SEEKB 0) } off len := by
  unfold seekbuf_service
  rw [if_neg (by omega), hb, hm]
  rfl

/-- Dispatch: a wrapped sum of at most `SB_BUFFER_SIZE` goes to the front
cache. -/
theorem get_buffer_front (e : Src) (SB SEEKB : Nat) (st : VolumeId) (off len : Nat)
    (h : (off + len) % U64 ≤ SB) :
    volume_id_get_buffer e SB SEEKB st off len = sbbuf_service e SB st off len := by
  unfold volume_id_get_buffer
  rw [if_pos h]

/-- Dispatch: a wrapped sum above `SB_BUFFER_SIZE` goes to the window
cache. -/
theorem get_buffer_window (e : Src) (SB SEEKB : Nat) (st : VolumeId) (off len : Nat)
    (h : SB < (off + len) % U64) :
    volume_id_get_buffer e SB SEEKB st off len = seekbuf_service e SEEKB st off len := by
  unfold volume_id_get_buffer
  rw [if_neg (by omega)]

/-- Every successful front-branch call returns the pointer `&sbbuf[off]`. -/
theorem sbbuf_refill_ok (e : Src) (st : VolumeId) (off len : Nat) (v : ViewRes)
    (h : (sbbuf_refill e st off len).1 = Except.ok v) : v = ⟨Region.front, off⟩ := by
  unfold sbbuf_refill at h
  split at h
  · try dsimp only at h
    split at h <;> try dsimp only at h
    all_goals split at h
    all_goals first
      | exact Except.noConfusion h
      | (injection h with h2; subst h2; rfl)
  · injection h with h2
    subst h2
    rfl

/-- Every successful front-service call returns the pointer `&sbbuf[off]`. -/
theorem sbbuf_service_ok (e : Src) (SB : Nat) (st : VolumeId) (off len : Nat) (v : ViewRes)
    (h : (sbbuf_service e SB st off len).1 = Except.ok v) : v = ⟨Region.front, off⟩ := by
  unfold sbbuf_service at h
  split at h
  · split at h
    · exact sbbuf_refill_ok _ _ _ _ _ h
    · simp_all
  · exact sbbuf_refill_ok _ _ _ _ _ h

/-- Every successful window-branch call returns a pointer into the window
buffer. -/
theorem seekbuf_refill_ok (e : Src) (st : VolumeId) (off len : Nat) (v : ViewRes)
    (h : (seekbuf_refill e st off len).1 = Except.ok v) : v.region = Region.window := by
  unfold seekbuf_refill at h
  split at h
  · split at h
    · try dsimp only at h
      split at h <;> try dsimp only at h
      all_goals split at h
      all_goals first
        | exact Except.noConfusion h
        | (injection h with h2; subst h2; rfl)
    · exact Except.noConfusion h
  · injection h with h2
    subst h2
    rfl

/-- Every successful window-service call returns a pointer into the window
buffer. -/
theorem seekbuf_service_ok (e : Src) (SEEKB : Nat) (st : VolumeId) (off len : Nat) (v : ViewRes)
    (h : (seekbuf_service e SEEKB st off len).1 = Except.ok v) : v.region = Region.window := by
  unfold seekbuf_service at h
  split at h
  · simp_all
  · split at h
    · split at h
      · exact seekbuf_refill_ok _ _ _ _ _ h
      · simp_all
    · exact seekbuf_refill_ok _ _ _ _ _ h

/-- The front branch issues either no I/O at all, or exactly one seek to
absolute offset 0 followed by one read at offset 0. -/
theorem sbbuf_refill_trace (e : Src) (st : VolumeId) (off len : Nat) :
    (sbbuf_refill e st off len).2.2 = [] ∨
    (sbbuf_refill e st off len).2.2 =
      [IoOp.seek 0, IoOp.readReq 0 ((off + len) % U64)] := by
  unfold sbbuf_refill
  split
  · right
    try dsimp only
    split <;> try dsimp only
    all_goals split <;> rfl
  · left
    rfl

/-- The front service issues either no I/O at all, or exactly one seek to
absolute offset 0 followed by one read at offset 0. -/
theorem sbbuf_service_trace (e : Src) (SB : Nat) (st : VolumeId) (off len : Nat) :
    (sbbuf_service e SB st off len).2.2 = [] ∨
    (sbbuf_service e SB st off len).2.2 =
      [IoOp.seek 0, IoOp.readReq 0 ((off + len) % U64)] := by
  unfold sbbuf_service
  split
  · split
    · exact sbbuf_refill_trace _ _ _ _
    · left
      rfl
  · exact sbbuf_refill_trace _ _ _ _

/-- The front branch never touches any window-cache field. -/
theorem sbbuf_refill_frame (e : Src) (st : VolumeId) (off len : Nat) :
    (sbbuf_refill e st off len).2.1.seekbuf = st.seekbuf ∧
    (sbbuf_refill e st off len).2.1.seekbuf_off = st.seekbuf_off ∧
    (sbbuf_refill e st off len).2.1.seekbuf_len = st.seekbuf_len := by
  unfold sbbuf_refill
  split
  · try dsimp only
    split <;> try dsimp only
    all_goals split <;> exact ⟨rfl, rfl, rfl⟩
  · exact ⟨rfl, rfl, rfl⟩

/-- The front service never touches any window-cache field. -/
theorem sbbuf_service_frame (e : Src) (SB : Nat) (st : VolumeId) (off len : Nat) :
    (sbbuf_service e SB st off len).2.1.seekbuf = st.seekbuf ∧
    (sbbuf_service e SB st off len).2.1.seekbuf_off = st.seekbuf_off ∧
    (sbbuf_service e SB st off len).2.1.seekbuf_len = st.seekbuf_len := by
  unfold sbbuf_service
  split
  · split
    · simpa using sbbuf_refill_frame e { st with sbbuf := some (List.replicate SB 0) } off len
    · simp
  · exact sbbuf_refill_frame e st off len

/-- The window branch never touches any front-cache field. -/
theorem seekbuf_refill_frame (e : Src) (st : VolumeId) (off len : Nat) :
    (seekbuf_refill e st off len).2.1.sbbuf = st.sbbuf ∧
    (seekbuf_refill e st off len).2.1.sbbuf_len = st.sbbuf_len := by
  unfold seekbuf_refill
  split
  · split
    · try dsimp only
      split <;> try dsimp only
      all_goals split <;> exact ⟨rfl, rfl⟩
    · exact ⟨rfl, rfl⟩
  · exact ⟨rfl, rfl⟩

/-- The window service never touches any front-cache field. -/
theorem seekbuf_service_frame (e : Src) (SEEKB : Nat) (st : VolumeId) (off len : Nat) :
    (seekbuf_service e SEEKB st off len).2.1.sbbuf = st.sbbuf ∧
    (seekbuf_service e SEEKB st off len).2.1.sbbuf_len = st.sbbuf_len := by
  unfold seekbuf_service
  split
  · simp
  · split
    · split
      · simpa using seekbuf_refill_frame e { st with seekbuf := some (List.replicate SEEKB 0) } off len
      · simp
    · exact seekbuf_refill_frame e st off len

end VolumeIdCache

namespace VolumeIdCache

/-- Arithmetic fact used to discharge the `__u64` wraps on small sums. -/
theorem U32_lt_U64 : U32 < U64 := by
  norm_num [U32, U64]

/-- Front read-if-needed step against the in-memory source: it preserves the
cache invariant, and a successful call hands out exactly the requested slice
of the source. -/
theorem sbbuf_refill_step (SB SEEKB : Nat) (data : List Nat) (st : VolumeId) (off len : Nat)
    (hSB : SB < U32) (hsum : off + len ≤ SB)
    (hinv : Inv SB SEEKB data st) (b : List Nat) (hb : st.sbbuf = some b) :
    Inv SB SEEKB data (sbbuf_refill (pureSrc data) st off len).2.1 ∧
    ∀ v, (sbbuf_refill (pureSrc data) st off len).1 = Except.ok v →
      viewBytes (sbbuf_refill (pureSrc data) st off len).2.1 v len =
        (data.drop off).take len ∧
      (viewBytes (sbbuf_refill (pureSrc data) st off len).2.1 v len).length = len := by
  have hmod : (off + len) % U64 = off + len :=
    Nat.mod_eq_of_lt (by have h1 := U32_lt_U64; omega)
  have hblen : b.length = SB := hinv.sb_size b hb
  by_cases hcov : off + len ≤ st.sbbuf_len
  · rw [sbbuf_refill_covered _ _ _ _ (by omega)]
    refine ⟨hinv, ?_⟩
    intro v hv
    injection hv with hv
    subst hv
    dsimp [viewBytes]
    rw [hb]
    dsimp [Option.getD]
    constructor
    · exact slice_agree (hinv.sb_good b hb) hcov
    · exact slice_len (by omega)
  · rw [sbbuf_refill_read data st off len (by omega)]
    rw [hmod, hb]
    dsimp only [Option.map]
    set bs := data.take (off + len) with hbs
    have hbsl : bs.length = min (off + len) data.length := List.length_take _ _
    have hbs_le : bs.length ≤ off + len := by omega
    have hbl : bs.length % U32 = bs.length := Nat.mod_eq_of_lt (by omega)
    rw [hbl]
    have hbs_le_b : bs.length ≤ b.length := by omega
    have hol : (overwrite b bs).length = SB := by
      rw [overwrite_length hbs_le_b, hblen]
    have hot : (overwrite b bs).take bs.length = bs := overwrite_take b bs
    have hdata_take : data.take bs.length = bs := by
      have h1 : (data.take (off + len)).take bs.length = data.take (min bs.length (off + len)) :=
        List.take_take _ _ _
      rw [Nat.min_eq_left hbs_le] at h1
      rw [← h1, ← hbs, List.take_length]
    constructor
    · constructor
      · intro b' hb'
        injection hb' with hb'
        rw [← hb', hol]
      · intro hnone
        cases hnone
      · show bs.length ≤ SB
        omega
      · show bs.length ≤ data.length
        omega
      · intro b' hb'
        injection hb' with hb'
        subst hb'
        show (overwrite b bs).take bs.length = data.take bs.length
        rw [hot, hdata_take]
      · exact hinv.sk_size
      · exact hinv.sk_none
      · exact hinv.sk_le_cap
      · exact hinv.sk_le_data
      · exact hinv.sk_good
      · exact hinv.sk_off_lt
    · intro v hv
      split at hv
      · exact Except.noConfusion hv
      · injection hv with hv
        subst hv
        have hfull : bs.length = off + len := by omega
        dsimp [viewBytes, Option.getD]
        constructor
        · refine slice_agree (k := off + len) ?_ (Nat.le_refl _)
          rw [← hfull, hot, hdata_take]
        · exact slice_len (by rw [hol]; omega)

end VolumeIdCache

namespace VolumeIdCache

/-- Allocating the front buffer preserves the cache invariant (the C code
allocates it only when the pointer is NULL, in which case the valid length
is 0). -/
theorem inv_alloc_sb (SB SEEKB : Nat) (data : List Nat) (st : VolumeId)
    (hinv : Inv SB SEEKB data st) (hb : st.sbbuf = none) :
    Inv SB SEEKB data { st with sbbuf := some (List.replicate SB 0) } := by
  have h0 : st.sbbuf_len = 0 := hinv.sb_none hb
  constructor
  · intro b' hb'
    injection hb' with hb'
    rw [← hb']
    exact List.length_replicate _ _
  · intro hn
    cases hn
  · show st.sbbuf_len ≤ SB
    omega
  · show st.sbbuf_len ≤ data.length
    omega
  · intro b' hb'
    injection hb' with hb'
    subst hb'
    show (List.replicate SB 0 : List Nat).take st.sbbuf_len = data.take st.sbbuf_len
    rw [h0]
    rfl
  · exact hinv.sk_size
  · exact hinv.sk_none
  · exact hinv.sk_le_cap
  · exact hinv.sk_le_data
  · exact hinv.sk_good
  · exact hinv.sk_off_lt

/-- Allocating the window buffer preserves the cache invariant. -/
theorem inv_alloc_sk (SB SEEKB : Nat) (data : List Nat) (st : VolumeId)
    (hinv : Inv SB SEEKB data st) (hb : st.seekbuf = none) :
    Inv SB SEEKB data { st with seekbuf := some (List.replicate SEEKB 0) } := by
  have h0 : st.seekbuf_len = 0 := hinv.sk_none hb
  constructor
  · exact hinv.sb_size
  · exact hinv.sb_none
  · exact hinv.sb_le_cap
  · exact hinv.sb_le_data
  · exact hinv.sb_good
  · intro b' hb'
    injection hb' with hb'
    rw [← hb']
    exact List.length_replicate _ _
  · intro hn
    cases hn
  · show st.seekbuf_len ≤ SEEKB
    omega
  · show st.seekbuf_len ≤ data.length - st.seekbuf_off
    exact hinv.sk_le_data
  · intro b' hb'
    injection hb' with hb'
    subst hb'
    show (List.replicate SEEKB 0 : List Nat).take st.seekbuf_len =
      (data.drop st.seekbuf_off).take st.seekbuf_len
    rw [h0]
    rfl
  · exact hinv.sk_off_lt

/-- Front branch (allocation included) against the in-memory source:
invariant preservation plus round-trip correctness of successful views. -/
theorem sbbuf_service_step (SB SEEKB : Nat) (data : List Nat) (st : VolumeId) (off len : Nat)
    (hSB : SB < U32) (hsum : off + len ≤ SB)
    (hinv : Inv SB SEEKB data st) :
    Inv SB SEEKB data (sbbuf_service (pureSrc data) SB st off len).2.1 ∧
    ∀ v, (sbbuf_service (pureSrc data) SB st off len).1 = Except.ok v →
      viewBytes (sbbuf_service (pureSrc data) SB st off len).2.1 v len =
        (data.drop off).take len ∧
      (viewBytes (sbbuf_service (pureSrc data) SB st off len).2.1 v len).length = len := by
  cases hb : st.sbbuf with
  | none =>
    rw [sbbuf_service_none _ _ _ _ _ hb rfl]
    exact sbbuf_refill_step SB SEEKB data _ off len hSB hsum
      (inv_alloc_sb SB SEEKB data st hinv hb) _ rfl
  | some b =>
    rw [sbbuf_service_some _ _ _ _ _ _ hb]
    exact sbbuf_refill_step SB SEEKB data st off len hSB hsum hinv b hb

end VolumeIdCache

namespace VolumeIdCache

/-- Window read-if-needed step against the in-memory source: it preserves
the cache invariant, and a successful call hands out exactly the requested
slice of the source. -/
theorem seekbuf_refill_step (SB SEEKB : Nat) (data : List Nat) (st : VolumeId) (off len : Nat)
    (hSEEKB : SEEKB < U32) (hL : data.length < U64)
    (hlen : len ≤ SEEKB) (hsum : off + len < U64)
    (hinv : Inv SB SEEKB data st) (b : List Nat) (hb : st.seekbuf = some b) :
    Inv SB SEEKB data (seekbuf_refill (pureSrc data) st off len).2.1 ∧
    ∀ v, (seekbuf_refill (pureSrc data) st off len).1 = Except.ok v →
      viewBytes (seekbuf_refill (pureSrc data) st off len).2.1 v len =
        (data.drop off).take len ∧
      (viewBytes (seekbuf_refill (pureSrc data) st off len).2.1 v len).length = len := by
  have hmod : (off + len) % U64 = off + len := Nat.mod_eq_of_lt hsum
  have hblen : b.length = SEEKB := hinv.sk_size b hb
  have hend : st.seekbuf_off + st.seekbuf_len < U64 := by
    have h1 := hinv.sk_le_data
    have h2 := hinv.sk_off_lt
    omega
  have hendmod : (st.seekbuf_off + st.seekbuf_len) % U64 = st.seekbuf_off + st.seekbuf_len :=
    Nat.mod_eq_of_lt hend
  by_cases hcov : st.seekbuf_off ≤ off ∧ off + len ≤ st.seekbuf_off + st.seekbuf_len
  · have hc1 := hcov.1
    have hc2 := hcov.2
    have hcap := hinv.sk_le_cap
    rw [seekbuf_refill_covered _ _ _ _ hc1 (by omega)]
    refine ⟨hinv, ?_⟩
    intro v hv
    injection hv with hv
    subst hv
    dsimp [viewBytes]
    rw [hb]
    dsimp [Option.getD]
    have hslice : (b.drop (off - st.seekbuf_off)).take len =
        ((data.drop st.seekbuf_off).drop (off - st.seekbuf_off)).take len :=
      slice_agree (hinv.sk_good b hb) (by omega)
    have hdd : (data.drop st.seekbuf_off).drop (off - st.seekbuf_off) = data.drop off := by
      rw [List.drop_drop]
      congr 1
      omega
    constructor
    · rw [hslice, hdd]
    · exact slice_len (by omega)
  · rw [seekbuf_refill_read data st off len (by omega)]
    rw [hb]
    dsimp only [Option.map]
    set bs := (data.drop off).take len with hbs
    have hbsl : bs.length = min len (data.length - off) := by
      rw [hbs, List.length_take, List.length_drop]
    have hbs_le : bs.length ≤ len := by omega
    have hbl : bs.length % U32 = bs.length := Nat.mod_eq_of_lt (by omega)
    rw [hbl]
    have hbs_le_b : bs.length ≤ b.length := by omega
    have hol : (overwrite b bs).length = SEEKB := by
      rw [overwrite_length hbs_le_b, hblen]
    have hot : (overwrite b bs).take bs.length = bs := overwrite_take b bs
    have hdrop_take : (data.drop off).take bs.length = bs := by
      have h1 : ((data.drop off).take len).take bs.length =
          (data.drop off).take (min bs.length len) := List.take_take _ _ _
      rw [Nat.min_eq_left hbs_le] at h1
      rw [← h1, ← hbs, List.take_length]
    constructor
    · constructor
      · exact hinv.sb_size
      · exact hinv.sb_none
      · exact hinv.sb_le_cap
      · exact hinv.sb_le_data
      · exact hinv.sb_good
      · intro b' hb'
        injection hb' with hb'
        rw [← hb', hol]
      · intro hn
        cases hn
      · show bs.length ≤ SEEKB
        omega
      · show bs.length ≤ data.length - off
        omega
      · intro b' hb'
        injection hb' with hb'
        subst hb'
        show (overwrite b bs).take bs.length = (data.drop off).take bs.length
        rw [hot, hdrop_take]
      · show off < U64
        omega
    · intro v hv
      split at hv
      · exact Except.noConfusion hv
      · injection hv with hv
        subst hv
        have hfull : bs.length = len := by omega
        dsimp [viewBytes, Option.getD]
        constructor
        · rw [← hfull]
          exact hot
        · rw [← hfull, hot]

/-- Window branch (size check and allocation included) against the
in-memory source: invariant preservation plus round-trip correctness of
successful views. -/
theorem seekbuf_service_step (SB SEEKB : Nat) (data : List Nat) (st : VolumeId) (off len : Nat)
    (hSEEKB : SEEKB < U32) (hL : data.length < U64) (hsum : off + len < U64)
    (hinv : Inv SB SEEKB data st) :
    Inv SB SEEKB data (seekbuf_service (pureSrc data) SEEKB st off len).2.1 ∧
    ∀ v, (seekbuf_service (pureSrc data) SEEKB st off len).1 = Except.ok v →
      viewBytes (seekbuf_service (pureSrc data) SEEKB st off len).2.1 v len =
        (data.drop off).take len ∧
      (viewBytes (seekbuf_service (pureSrc data) SEEKB st off len).2.1 v len).length = len := by
  by_cases hlen : len ≤ SEEKB
  · cases hb : st.seekbuf with
    | none =>
      rw [seekbuf_service_none _ _ _ _ _ hb rfl hlen]
      exact seekbuf_refill_step SB SEEKB data _ off len hSEEKB hL hlen hsum
        (inv_alloc_sk SB SEEKB data st hinv hb) _ rfl
    | some b =>
      rw [seekbuf_service_some _ _ _ _ _ _ hb hlen]
      exact seekbuf_refill_step SB SEEKB data st off len hSEEKB hL hlen hsum hinv b hb
  · unfold seekbuf_service
    rw [if_pos (by omega)]
    exact ⟨hinv, fun v hv => Except.noConfusion hv⟩

/-- One `volume_id_get_buffer` call against the in-memory source preserves
the cache invariant, and when it succeeds its view is exactly the requested
slice of the source, of exactly the requested length. -/
theorem get_buffer_step (SB SEEKB : Nat) (data : List Nat) (st : VolumeId) (off len : Nat)
    (hSB : SB < U32) (hSEEKB : SEEKB < U32) (hL : data.length < U64)
    (hsum : off + len < U64) (hinv : Inv SB SEEKB data st) :
    Inv SB SEEKB data (volume_id_get_buffer (pureSrc data) SB SEEKB st off len).2.1 ∧
    ∀ v, (volume_id_get_buffer (pureSrc data) SB SEEKB st off len).1 = Except.ok v →
      viewBytes (volume_id_get_buffer (pureSrc data) SB SEEKB st off len).2.1 v len =
        (data.drop off).take len ∧
      (viewBytes (volume_id_get_buffer (pureSrc data) SB SEEKB st off len).2.1 v len).length =
        len := by
  have hmod : (off + len) % U64 = off + len := Nat.mod_eq_of_lt hsum
  by_cases hdisp : off + len ≤ SB
  · rw [get_buffer_front _ _ _ _ _ _ (by omega)]
    exact sbbuf_service_step SB SEEKB data st off len hSB hdisp hinv
  · rw [get_buffer_window _ _ _ _ _ _ (by omega)]
    exact seekbuf_service_step SB SEEKB data st off len hSEEKB hL hsum hinv

end VolumeIdCache

namespace VolumeIdCache

/-- The invariant holds in the fresh state, for every reference source. -/
theorem inv_init (SB SEEKB : Nat) (data : List Nat) : Inv SB SEEKB data initId := by
  constructor
  · intro b h
    cases h
  · intro h
    rfl
  · exact Nat.zero_le _
  · exact Nat.zero_le _
  · intro b h
    cases h
  · intro b h
    cases h
  · intro h
    rfl
  · exact Nat.zero_le _
  · exact Nat.zero_le _
  · intro b h
    cases h
  · show 0 < U64
    norm_num [U64]

/-- Soundness of whole call sequences: starting from any invariant state,
every successful call in the sequence returns exactly the requested slice
of the reference source. -/
theorem runCalls_sound (SB SEEKB : Nat) (data : List Nat)
    (hSB : SB < U32) (hSEEKB : SEEKB < U32) (hL : data.length < U64) :
    ∀ (reqs : List (Nat × Nat)) (st : VolumeId), Inv SB SEEKB data st →
    (∀ p ∈ reqs, p.1 + p.2 < U64) →
    List.Forall₂ (sliceOk data) reqs (runCalls (pureSrc data) SB SEEKB reqs st).2 := by
  intro reqs
  induction reqs with
  | nil =>
    intro st _ _
    exact List.Forall₂.nil
  | cons p rest ih =>
    intro st hinv hdom
    obtain ⟨off, len⟩ := p
    have hstep := get_buffer_step SB SEEKB data st off len hSB hSEEKB hL
      (hdom _ (List.mem_cons_self _ _)) hinv
    simp only [runCalls]
    refine List.Forall₂.cons ?_
      (ih _ hstep.1 (fun q hq => hdom q (List.mem_cons_of_mem _ hq)))
    intro bs hbs
    rcases hr : (volume_id_get_buffer (pureSrc data) SB SEEKB st off len).1 with err | v
    · rw [hr] at hbs
      exact Option.noConfusion hbs
    · rw [hr] at hbs
      injection hbs with hbs
      rw [← hbs]
      exact hstep.2 v hr

end VolumeIdCache

namespace VolumeIdCache

/-- C1: for every sequence of `get_view(offset, length)` calls against a
fixed byte source, every call that succeeds returns a view whose `length`
bytes are exactly bytes `[offset, offset+length)` of the source, for any
interleaving of front-cache and window-cache requests.  (The capacities and
per-request sums are constrained to their C machine domains, where the
64-bit sum does not wrap; claim C9 covers the wrapping case.) -/
theorem claim1_round_trip (SB SEEKB : Nat) (data : List Nat) (reqs : List (Nat × Nat))
    (hSB : SB < U32) (hSEEKB : SEEKB < U32) (hL : data.length < U64)
    (hdom : ∀ p ∈ reqs, p.1 + p.2 < U64) :
    List.Forall₂ (sliceOk data) reqs (runCalls (pureSrc data) SB SEEKB reqs initId).2 :=
  runCalls_sound SB SEEKB data hSB hSEEKB hL reqs initId (inv_init SB SEEKB data) hdom

/-- Witness for C1 at a concrete mixed front/window call sequence. -/
theorem claim1_round_trip_witness :
    List.Forall₂ (sliceOk [10, 11, 12, 13, 14, 15]) [(0, 2), (4, 2), (1, 3), (3, 3), (5, 1)]
      (runCalls (pureSrc [10, 11, 12, 13, 14, 15]) 4 3
        [(0, 2), (4, 2), (1, 3), (3, 3), (5, 1)] initId).2 :=
  claim1_round_trip 4 3 [10, 11, 12, 13, 14, 15] [(0, 2), (4, 2), (1, 3), (3, 3), (5, 1)]
    (by norm_num [U32]) (by norm_num [U32]) (by norm_num [U64]) (by decide)

/-- C3: a request with `offset + length = C_front` is serviced by the front
cache — the returned view points into the front buffer and any refill of
that call seeks to absolute offset 0 — while `offset + length = C_front + 1`
is serviced by the window cache. -/
theorem claim3_boundary (e : Src) (SB SEEKB : Nat) (st : VolumeId) (off len : Nat)
    (hdom : SB + 1 < U64) :
    (off + len = SB →
      volume_id_get_buffer e SB SEEKB st off len = sbbuf_service e SB st off len ∧
      (∀ v, (volume_id_get_buffer e SB SEEKB st off len).1 = Except.ok v →
        v.region = Region.front) ∧
      ((volume_id_get_buffer e SB SEEKB st off len).2.2 = [] ∨
       (volume_id_get_buffer e SB SEEKB st off len).2.2 =
         [IoOp.seek 0, IoOp.readReq 0 ((off + len) % U64)])) ∧
    (off + len = SB + 1 →
      volume_id_get_buffer e SB SEEKB st off len = seekbuf_service e SEEKB st off len ∧
      ∀ v, (volume_id_get_buffer e SB SEEKB st off len).1 = Except.ok v →
        v.region = Region.window) := by
  constructor
  · intro hfr
    have hmod : (off + len) % U64 = off + len := Nat.mod_eq_of_lt (by omega)
    have hdisp := get_buffer_front e SB SEEKB st off len (by omega)
    refine ⟨hdisp, fun v hv => ?_, ?_⟩
    · rw [hdisp] at hv
      rw [sbbuf_service_ok e SB st off len v hv]
    · rw [hdisp]
      exact sbbuf_service_trace e SB st off len
  · intro hwin
    have hmod : (off + len) % U64 = off + len := Nat.mod_eq_of_lt (by omega)
    have hdisp := get_buffer_window e SB SEEKB st off len (by omega)
    refine ⟨hdisp, fun v hv => ?_⟩
    rw [hdisp] at hv
    exact seekbuf_service_ok e SEEKB st off len v hv

/-- Witness for C3: both boundary cases at `C_front = 5`. -/
theorem claim3_boundary_witness :
    (volume_id_get_buffer (pureSrc [0]) 5 8 initId 2 3 =
      sbbuf_service (pureSrc [0]) 5 initId 2 3) ∧
    (volume_id_get_buffer (pureSrc [0]) 5 8 initId 2 4 =
      seekbuf_service (pureSrc [0]) 8 initId 2 4) :=
  ⟨((claim3_boundary (pureSrc [0]) 5 8 initId 2 3 (by norm_num [U64])).1 (by norm_num)).1,
   ((claim3_boundary (pureSrc [0]) 5 8 initId 2 4 (by norm_num [U64])).2 (by norm_num)).1⟩

/-- C4 counterexample: with `C_front = 0x11000` and `C_window = 0x10000`,
the request `off = 2^64 - 0x10001`, `len = 0x10001` has a true sum above
`C_front` and a length above `C_window`, yet `volume_id_get_buffer` does
not fail with `RequestTooLarge` — the 64-bit sum wraps to 0, the request is
dispatched to the front cache and succeeds. -/
theorem claim4_counterexample :
    69632 < 18446744073709486079 + 65537 ∧
    65536 < 65537 ∧
    (volume_id_get_buffer (pureSrc []) 69632 65536 initId 18446744073709486079 65537).1 =
      Except.ok ⟨Region.front, 18446744073709486079⟩ := by
  refine ⟨by norm_num, by norm_num, ?_⟩
  decide

/-- C4 (amended): whenever the 64-bit wrapped sum `(offset + length) mod
2^64` exceeds `C_front` and `length > C_window`, the call fails with
`RequestTooLarge`, the cache state is left untouched, and no physical I/O is
performed, regardless of prior cache state. -/
theorem claim4_amended (e : Src) (SB SEEKB : Nat) (st : VolumeId) (off len : Nat)
    (hnf : SB < (off + len) % U64) (hlarge : SEEKB < len) :
    volume_id_get_buffer e SB SEEKB st off len =
      (Except.error CacheError.requestTooLarge, st, []) := by
  rw [get_buffer_window e SB SEEKB st off len hnf]
  unfold seekbuf_service
  rw [if_pos (by omega)]

/-- Witness for the amended C4 at a concrete oversized request. -/
theorem claim4_amended_witness :
    volume_id_get_buffer (pureSrc []) 69632 65536 initId 69632 65537 =
      (Except.error CacheError.requestTooLarge, initId, []) :=
  claim4_amended (pureSrc []) 69632 65536 initId 69632 65537 (by decide) (by norm_num)

/-- C9: region selection is performed on `(offset + length) mod 2^64`; a
request whose true sum exceeds `2^64 - 1` but wraps to at most `C_front` is
dispatched to the front cache, and a successful view is indexed at the huge
offset into the front buffer, instead of being routed to the window cache
or rejected. -/
theorem claim9_wraparound (e : Src) (SB SEEKB : Nat) (st : VolumeId) (off len : Nat)
    (hoff : off < U64) (hwrap : U64 ≤ off + len) (hsel : (off + len) % U64 ≤ SB) :
    volume_id_get_buffer e SB SEEKB st off len = sbbuf_service e SB st off len ∧
    ∀ v, (volume_id_get_buffer e SB SEEKB st off len).1 = Except.ok v →
      v.region = Region.front ∧ v.start = off := by
  have hdisp := get_buffer_front e SB SEEKB st off len hsel
  refine ⟨hdisp, fun v hv => ?_⟩
  rw [hdisp] at hv
  rw [sbbuf_service_ok e SB st off len v hv]
  exact ⟨rfl, rfl⟩

/-- Witness for C9: an offset near the top of the 64-bit space whose sum
wraps to 1 is served by the front cache and indexed at the huge offset. -/
theorem claim9_wraparound_witness :
    volume_id_get_buffer (pureSrc [7, 7]) 69632 65536 initId (2 ^ 64 - 1) 2 =
      sbbuf_service (pureSrc [7, 7]) 69632 initId (2 ^ 64 - 1) 2 ∧
    (⟨Region.front, 2 ^ 64 - 1⟩ : ViewRes).region = Region.front ∧
    (⟨Region.front, 2 ^ 64 - 1⟩ : ViewRes).start = 2 ^ 64 - 1 :=
  ⟨(claim9_wraparound (pureSrc [7, 7]) 69632 65536 initId (2 ^ 64 - 1) 2
      (by norm_num [U64]) (by norm_num [U64]) (by decide)).1,
   (claim9_wraparound (pureSrc [7, 7]) 69632 65536 initId (2 ^ 64 - 1) 2
      (by norm_num [U64]) (by norm_num [U64]) (by decide)).2 ⟨Region.front, 2 ^ 64 - 1⟩
      (by decide)⟩

/-- C10: a call dispatched to the front cache leaves every window-cache
field unchanged, and a call dispatched to the window cache — successful or
not — leaves every front-cache field unchanged. -/
theorem claim10_frame (e : Src) (SB SEEKB : Nat) (st : VolumeId) (off len : Nat) :
    ((off + len) % U64 ≤ SB →
      (volume_id_get_buffer e SB SEEKB st off len).2.1.seekbuf = st.seekbuf ∧
      (volume_id_get_buffer e SB SEEKB st off len).2.1.seekbuf_off = st.seekbuf_off ∧
      (volume_id_get_buffer e SB SEEKB st off len).2.1.seekbuf_len = st.seekbuf_len) ∧
    (SB < (off + len) % U64 →
      (volume_id_get_buffer e SB SEEKB st off len).2.1.sbbuf = st.sbbuf ∧
      (volume_id_get_buffer e SB SEEKB st off len).2.1.sbbuf_len = st.sbbuf_len) := by
  constructor
  · intro h
    rw [get_buffer_front e SB SEEKB st off len h]
    exact sbbuf_service_frame e SB st off len
  · intro h
    rw [get_buffer_window e SB SEEKB st off len h]
    exact seekbuf_service_frame e SEEKB st off len

/-- Witness for C10: one concrete front call and one concrete window call,
each leaving the other region's fields unchanged. -/
theorem claim10_frame_witness :
    ((volume_id_get_buffer errReadSrc 69632 65536 initId 0 16).2.1.seekbuf = initId.seekbuf ∧
     (volume_id_get_buffer errReadSrc 69632 65536 initId 0 16).2.1.seekbuf_off =
       initId.seekbuf_off ∧
     (volume_id_get_buffer errReadSrc 69632 65536 initId 0 16).2.1.seekbuf_len =
       initId.seekbuf_len) ∧
    ((volume_id_get_buffer errReadSrc 69632 65536 initId 131072 4).2.1.sbbuf = initId.sbbuf ∧
     (volume_id_get_buffer errReadSrc 69632 65536 initId 131072 4).2.1.sbbuf_len =
       initId.sbbuf_len) :=
  ⟨(claim10_frame errReadSrc 69632 65536 initId 0 16).1 (by decide),
   (claim10_frame errReadSrc 69632 65536 initId 131072 4).2 (by decide)⟩

end VolumeIdCache

namespace VolumeIdCache

/-- C2 (code bug faithfully evaluated): a failing `read` is not propagated.
The `-1` returned by `read(2)` is stored into the `unsigned int buf_len` as
`0xFFFFFFFF`, so the short-read check `buf_len < len` (resp.
`buf_len < off + len`) is false and the call succeeds.  With
`C_front = 69632`, `C_window = 65536` and a fresh cache, a window request
`get_view(131072, 4)` against a source whose read errors returns a
successful view and raises `seekbuf_len` from 0 to 4294967295; a front
request `get_view(0, 16)` likewise succeeds and raises `sbbuf_len` to
4294967295 — the claim instead requires the error to propagate and
`valid_len` never to claim more valid bytes than before the call. -/
theorem claim2_read_error_code_bug :
    (volume_id_get_buffer errReadSrc 69632 65536 initId 131072 4).1 =
      Except.ok ⟨Region.window, 0⟩ ∧
    (volume_id_get_buffer errReadSrc 69632 65536 initId 131072 4).2.1.seekbuf_len =
      4294967295 ∧
    initId.seekbuf_len = 0 ∧
    (volume_id_get_buffer errReadSrc 69632 65536 initId 0 16).1 =
      Except.ok ⟨Region.front, 0⟩ ∧
    (volume_id_get_buffer errReadSrc 69632 65536 initId 0 16).2.1.sbbuf_len =
      4294967295 ∧
    initId.sbbuf_len = 0 := by
  decide

/-- Field-level description of `volume_id_free_buffer`: both buffers end up
NULL, each valid length is zeroed exactly when its buffer was allocated,
and the window offset is untouched. -/
theorem free_buffer_fields (st : VolumeId) :
    (volume_id_free_buffer st).sbbuf = none ∧
    (volume_id_free_buffer st).seekbuf = none ∧
    (volume_id_free_buffer st).sbbuf_len =
      (if st.sbbuf = none then st.sbbuf_len else 0) ∧
    (volume_id_free_buffer st).seekbuf_len =
      (if st.seekbuf = none then st.seekbuf_len else 0) ∧
    (volume_id_free_buffer st).seekbuf_off = st.seekbuf_off := by
  unfold volume_id_free_buffer
  cases hsb : st.sbbuf <;> cases hsk : st.seekbuf <;> simp [hsb, hsk]

/-- Two cache states with equal fields are equal. -/
theorem VolumeId_eq (a b : VolumeId) (h1 : a.sbbuf = b.sbbuf) (h2 : a.sbbuf_len = b.sbbuf_len)
    (h3 : a.seekbuf = b.seekbuf) (h4 : a.seekbuf_off = b.seekbuf_off)
    (h5 : a.seekbuf_len = b.seekbuf_len) : a = b := by
  cases a
  cases b
  simp_all

/-- The representation invariant holds initially. -/
theorem cacheInv_init : CacheInv initId :=
  ⟨fun _ => rfl, fun _ => rfl⟩

/-- The front read step keeps the front buffer allocated, hence preserves
the representation invariant. -/
theorem sbbuf_refill_cacheInv (e : Src) (st : VolumeId) (off len : Nat) (b : List Nat)
    (hb : st.sbbuf = some b) (h : CacheInv st) :
    CacheInv (sbbuf_refill e st off len).2.1 := by
  unfold sbbuf_refill
  split
  · try dsimp only
    split <;> try dsimp only
    all_goals split
    all_goals refine ⟨fun hn => ?_, h.2⟩
    all_goals rw [hb] at hn
    all_goals simp at hn
  · exact h

/-- The window read step keeps the window buffer allocated, hence preserves
the representation invariant. -/
theorem seekbuf_refill_cacheInv (e : Src) (st : VolumeId) (off len : Nat) (b : List Nat)
    (hb : st.seekbuf = some b) (h : CacheInv st) :
    CacheInv (seekbuf_refill e st off len).2.1 := by
  unfold seekbuf_refill
  split
  · split
    · try dsimp only
      split <;> try dsimp only
      all_goals split
      all_goals refine ⟨h.1, fun hn => ?_⟩
      all_goals rw [hb] at hn
      all_goals simp at hn
    · exact h
  · exact h

/-- `volume_id_get_buffer` preserves the representation invariant in every
case, for every source behaviour. -/
theorem get_buffer_cacheInv (e : Src) (SB SEEKB : Nat) (st : VolumeId) (off len : Nat)
    (h : CacheInv st) :
    CacheInv (volume_id_get_buffer e SB SEEKB st off len).2.1 := by
  unfold volume_id_get_buffer
  split
  · unfold sbbuf_service
    split
    · split
      · exact sbbuf_refill_cacheInv e _ off len (List.replicate SB 0) rfl
          ⟨fun hn => Option.noConfusion hn, h.2⟩
      · exact h
    · exact sbbuf_refill_cacheInv e st off len _ (by assumption) h
  · unfold seekbuf_service
    split
    · exact h
    · split
      · split
        · exact seekbuf_refill_cacheInv e _ off len (List.replicate SEEKB 0) rfl
            ⟨h.1, fun hn => Option.noConfusion hn⟩
        · exact h
      · exact seekbuf_refill_cacheInv e st off len _ (by assumption) h

/-- `volume_id_free_buffer` preserves the representation invariant. -/
theorem free_buffer_cacheInv (st : VolumeId) (h : CacheInv st) :
    CacheInv (volume_id_free_buffer st) := by
  obtain ⟨h1, h2, h3, h4, h5⟩ := free_buffer_fields st
  refine ⟨fun _ => ?_, fun _ => ?_⟩
  · rw [h3]
    split
    · exact h.1 (by assumption)
    · rfl
  · rw [h4]
    split
    · exact h.2 (by assumption)
    · rfl

/-- C8: in every state of the cache (every state satisfying the
representation invariant, which `cacheInv_init`, `get_buffer_cacheInv` and
`free_buffer_cacheInv` show to cover all states the session can reach),
`release_all` deallocates both buffers and resets both valid lengths to 0,
including when one or both buffers are already unallocated; and it is
idempotent on all states whatsoever. -/
theorem claim8_free_buffer (st : VolumeId) :
    (CacheInv st →
      (volume_id_free_buffer st).sbbuf = none ∧
      (volume_id_free_buffer st).sbbuf_len = 0 ∧
      (volume_id_free_buffer st).seekbuf = none ∧
      (volume_id_free_buffer st).seekbuf_len = 0) ∧
    volume_id_free_buffer (volume_id_free_buffer st) = volume_id_free_buffer st := by
  obtain ⟨h1, h2, h3, h4, h5⟩ := free_buffer_fields st
  constructor
  · intro hinv
    refine ⟨h1, ?_, h2, ?_⟩
    · rw [h3]
      split
      · exact hinv.1 (by assumption)
      · rfl
    · rw [h4]
      split
      · exact hinv.2 (by assumption)
      · rfl
  · obtain ⟨g1, g2, g3, g4, g5⟩ := free_buffer_fields (volume_id_free_buffer st)
    apply VolumeId_eq
    · rw [g1, h1]
    · rw [g3, if_pos h1]
    · rw [g2, h2]
    · rw [g5]
    · rw [g4, if_pos h2]

/-- Witness for C8 at a concrete state with both buffers allocated. -/
theorem claim8_free_buffer_witness :
    ((volume_id_free_buffer ⟨some [1, 2], 2, some [3], 5, 1⟩).sbbuf = none ∧
     (volume_id_free_buffer ⟨some [1, 2], 2, some [3], 5, 1⟩).sbbuf_len = 0 ∧
     (volume_id_free_buffer ⟨some [1, 2], 2, some [3], 5, 1⟩).seekbuf = none ∧
     (volume_id_free_buffer ⟨some [1, 2], 2, some [3], 5, 1⟩).seekbuf_len = 0) ∧
    volume_id_free_buffer (volume_id_free_buffer ⟨some [1, 2], 2, some [3], 5, 1⟩) =
      volume_id_free_buffer ⟨some [1, 2], 2, some [3], 5, 1⟩ :=
  ⟨(claim8_free_buffer ⟨some [1, 2], 2, some [3], 5, 1⟩).1
     ⟨fun h => Option.noConfusion h, fun h => Option.noConfusion h⟩,
   (claim8_free_buffer ⟨some [1, 2], 2, some [3], 5, 1⟩).2⟩

end VolumeIdCache

namespace VolumeIdCache

/-- General front refill equation when the source's read reports an error:
`buf_len` becomes `UINT_MAX` and is stored into `sbbuf_len`. -/
theorem sbbuf_refill_readErr (e : Src) (st : VolumeId) (off len : Nat)
    (h : st.sbbuf_len < (off + len) % U64)
    (hr : e.readAt 0 ((off + len) % U64) = none) :
    sbbuf_refill e st off len =
      (if UINT_MAX < (off + len) % U64 then Except.error CacheError.insufficientData
       else Except.ok ⟨Region.front, off⟩,
       { st with sbbuf_len := UINT_MAX },
       [IoOp.seek 0, IoOp.readReq 0 ((off + len) % U64)]) := by
  unfold sbbuf_refill
  rw [if_pos h]
  simp only [hr]
  split <;> rfl

/-- General front refill equation when the source's read transfers `bs`. -/
theorem sbbuf_refill_readOk (e : Src) (st : VolumeId) (off len : Nat) (bs : List Nat)
    (h : st.sbbuf_len < (off + len) % U64)
    (hr : e.readAt 0 ((off + len) % U64) = some bs) :
    sbbuf_refill e st off len =
      (if bs.length % U32 < (off + len) % U64 then Except.error CacheError.insufficientData
       else Except.ok ⟨Region.front, off⟩,
       { st with sbbuf := st.sbbuf.map (fun b => overwrite b bs),
                 sbbuf_len := bs.length % U32 },
       [IoOp.seek 0, IoOp.readReq 0 ((off + len) % U64)]) := by
  unfold sbbuf_refill
  rw [if_pos h]
  simp only [hr]
  split <;> rfl

/-- After any successful front refill the valid front length covers the
request and the buffer stays allocated (for every source behaviour,
including the erroneous-read path where `sbbuf_len` becomes `UINT_MAX`). -/
theorem sbbuf_refill_post (e : Src) (st : VolumeId) (off len : Nat) (v : ViewRes)
    (hv : (sbbuf_refill e st off len).1 = Except.ok v) :
    (off + len) % U64 ≤ (sbbuf_refill e st off len).2.1.sbbuf_len ∧
    (sbbuf_refill e st off len).2.1.sbbuf.isSome = st.sbbuf.isSome := by
  by_cases hc : (off + len) % U64 ≤ st.sbbuf_len
  · rw [sbbuf_refill_covered e st off len hc]
    exact ⟨hc, rfl⟩
  · rcases hr : e.readAt 0 ((off + len) % U64) with _ | bs
    · rw [sbbuf_refill_readErr e st off len (by omega) hr] at hv ⊢
      split at hv
      · exact Except.noConfusion hv
      · refine ⟨?_, rfl⟩
        show (off + len) % U64 ≤ UINT_MAX
        omega
    · rw [sbbuf_refill_readOk e st off len bs (by omega) hr] at hv ⊢
      split at hv
      · exact Except.noConfusion hv
      · refine ⟨?_, ?_⟩
        · show (off + len) % U64 ≤ bs.length % U32
          omega
        · show (st.sbbuf.map (fun b => overwrite b bs)).isSome = st.sbbuf.isSome
          cases st.sbbuf <;> rfl

/-- After any successful front service the valid front length covers the
request and the front buffer is allocated. -/
theorem sbbuf_service_post (e : Src) (SB : Nat) (st : VolumeId) (off len : Nat) (v : ViewRes)
    (hv : (sbbuf_service e SB st off len).1 = Except.ok v) :
    (off + len) % U64 ≤ (sbbuf_service e SB st off len).2.1.sbbuf_len ∧
    (sbbuf_service e SB st off len).2.1.sbbuf.isSome = true := by
  cases hb : st.sbbuf with
  | none =>
    rcases hm : e.mallocOk with _ | _
    · unfold sbbuf_service at hv
      rw [hb, hm] at hv
      simp at hv
    · rw [sbbuf_service_none _ _ _ _ _ hb hm] at hv ⊢
      have h := sbbuf_refill_post e _ off len v hv
      exact ⟨h.1, h.2⟩
  | some b =>
    rw [sbbuf_service_some _ _ _ _ _ _ hb] at hv ⊢
    have h := sbbuf_refill_post e st off len v hv
    refine ⟨h.1, ?_⟩
    rw [h.2, hb]
    rfl

/-- A front request already covered by the allocated front buffer returns
instantly: no I/O, no state change. -/
theorem get_buffer_cached_front (e : Src) (SB SEEKB : Nat) (st : VolumeId) (off len : Nat)
    (b : List Nat) (hb : st.sbbuf = some b)
    (hsel : (off + len) % U64 ≤ SB) (hcov : (off + len) % U64 ≤ st.sbbuf_len) :
    volume_id_get_buffer e SB SEEKB st off len = (Except.ok ⟨Region.front, off⟩, st, []) := by
  rw [get_buffer_front _ _ _ _ _ _ hsel, sbbuf_service_some _ _ _ _ _ _ hb,
      sbbuf_refill_covered _ _ _ _ hcov]

/-- Any sequence of requests lying inside the already-valid front range
runs entirely from cache: state unchanged, no I/O, every call succeeds. -/
theorem runCalls_cached_front (e : Src) (SB SEEKB : Nat) (off len : Nat)
    (hSB : SB < U64) (hfr : off + len ≤ SB) :
    ∀ (reqs : List (Nat × Nat)) (st : VolumeId) (b : List Nat),
      st.sbbuf = some b → off + len ≤ st.sbbuf_len →
      (∀ p ∈ reqs, p.1 + p.2 ≤ off + len) →
      (runCalls e SB SEEKB reqs st).1 = st ∧
      ∀ o ∈ (runCalls e SB SEEKB reqs st).2, o.2 = [] ∧ o.1.isSome = true := by
  intro reqs
  induction reqs with
  | nil =>
    intro st b hb hcov hdom
    refine ⟨rfl, ?_⟩
    intro o ho
    cases ho
  | cons p rest ih =>
    intro st b hb hcov hdom
    obtain ⟨o1, l1⟩ := p
    have hhead : o1 + l1 ≤ off + len := hdom (o1, l1) (List.mem_cons_self _ _)
    have hm : (o1 + l1) % U64 = o1 + l1 := Nat.mod_eq_of_lt (by omega)
    have hcall := get_buffer_cached_front e SB SEEKB st o1 l1 b hb (by omega) (by omega)
    have hrest := ih st b hb hcov (fun q hq => hdom q (List.mem_cons_of_mem _ hq))
    simp only [runCalls, hcall]
    refine ⟨hrest.1, ?_⟩
    intro o ho
    rcases List.mem_cons.mp ho with h | h
    · subst h
      exact ⟨rfl, rfl⟩
    · exact hrest.2 o h

/-- C7: after one successful front-cache call covering `[off, off+len)`,
every repeated call with the same or a smaller contained range issues no
further physical seek or read, leaves the state untouched, and succeeds. -/
theorem claim7_no_reread (e : Src) (SB SEEKB : Nat) (st : VolumeId) (off len : Nat)
    (reqs : List (Nat × Nat)) (hSB : SB < U64) (hfr : off + len ≤ SB)
    (hok : ∃ v, (volume_id_get_buffer e SB SEEKB st off len).1 = Except.ok v)
    (hsub : ∀ p ∈ reqs, p.1 + p.2 ≤ off + len) :
    (runCalls e SB SEEKB reqs (volume_id_get_buffer e SB SEEKB st off len).2.1).1 =
      (volume_id_get_buffer e SB SEEKB st off len).2.1 ∧
    ∀ o ∈ (runCalls e SB SEEKB reqs (volume_id_get_buffer e SB SEEKB st off len).2.1).2,
      o.2 = [] ∧ o.1.isSome = true := by
  obtain ⟨v, hv⟩ := hok
  have hmod : (off + len) % U64 = off + len := Nat.mod_eq_of_lt (by omega)
  have hd := get_buffer_front e SB SEEKB st off len (by omega)
  rw [hd] at hv ⊢
  have hpost := sbbuf_service_post e SB st off len v hv
  obtain ⟨b1, hb1⟩ := Option.isSome_iff_exists.mp hpost.2
  exact runCalls_cached_front e SB SEEKB off len hSB hfr reqs
    (sbbuf_service e SB st off len).2.1 b1 hb1 (by have := hpost.1; omega) hsub

end VolumeIdCache

namespace VolumeIdCache

/-- Witness for C7: a successful front call for `[0, 16)` followed by a
repeat and a sub-range call, neither issuing any I/O. -/
theorem claim7_no_reread_witness :
    (runCalls (pureSrc (List.replicate 20 3)) 69632 65536 [(0, 16), (2, 5)]
      (volume_id_get_buffer (pureSrc (List.replicate 20 3)) 69632 65536 initId 0 16).2.1).1 =
      (volume_id_get_buffer (pureSrc (List.replicate 20 3)) 69632 65536 initId 0 16).2.1 ∧
    ∀ o ∈ (runCalls (pureSrc (List.replicate 20 3)) 69632 65536 [(0, 16), (2, 5)]
      (volume_id_get_buffer (pureSrc (List.replicate 20 3)) 69632 65536 initId 0 16).2.1).2,
      o.2 = [] ∧ o.1.isSome = true :=
  claim7_no_reread (pureSrc (List.replicate 20 3)) 69632 65536 initId 0 16 [(0, 16), (2, 5)]
    (by norm_num [U64]) (by norm_num) ⟨⟨Region.front, 0⟩, by decide⟩ (by decide)

/-- Front refill against a too-short in-memory source: the read transfers
the whole source, which is recorded as the valid length, and the call fails
with `InsufficientData`. -/
theorem sbbuf_refill_short (data : List Nat) (st : VolumeId) (off len : Nat)
    (hU : off + len < U32) (hlow : st.sbbuf_len < off + len)
    (hshort : data.length < off + len)
    (b : List Nat) (hb : st.sbbuf = some b) :
    (sbbuf_refill (pureSrc data) st off len).1 = Except.error CacheError.insufficientData ∧
    (sbbuf_refill (pureSrc data) st off len).2.1 =
      { st with sbbuf := some (overwrite b data), sbbuf_len := data.length } := by
  have hmod : (off + len) % U64 = off + len :=
    Nat.mod_eq_of_lt (by have := U32_lt_U64; omega)
  have htake : data.take (off + len) = data := List.take_of_length_le (by omega)
  have hLmod : data.length % U32 = data.length := Nat.mod_eq_of_lt (by omega)
  rw [sbbuf_refill_read data st off len (by omega)]
  rw [hmod, htake, hLmod, hb]
  constructor
  · rw [if_pos hshort]
  · rfl

/-- Front service against a too-short in-memory source, allocation
included. -/
theorem sbbuf_service_short (SB SEEKB : Nat) (data : List Nat) (st : VolumeId) (off len : Nat)
    (hSB : SB < U32) (hinv : Inv SB SEEKB data st)
    (hfr : off + len ≤ SB) (hshort : data.length < off + len) :
    ∃ b', (sbbuf_service (pureSrc data) SB st off len).1 =
        Except.error CacheError.insufficientData ∧
      (sbbuf_service (pureSrc data) SB st off len).2.1 =
        { st with sbbuf := some b', sbbuf_len := data.length } ∧
      b'.take data.length = data.take data.length ∧ b'.length = SB := by
  have hle := hinv.sb_le_data
  cases hb : st.sbbuf with
  | none =>
    rw [sbbuf_service_none _ _ _ _ _ hb rfl]
    obtain ⟨he, hst⟩ := sbbuf_refill_short data
      { st with sbbuf := some (List.replicate SB 0) } off len (by omega)
      (by show st.sbbuf_len < off + len; omega) hshort (List.replicate SB 0) rfl
    refine ⟨overwrite (List.replicate SB 0) data, he, ?_, ?_, ?_⟩
    · rw [hst]
    · rw [List.take_length]
      exact overwrite_take _ _
    · rw [overwrite_length (by rw [List.length_replicate]; omega), List.length_replicate]
  | some b =>
    rw [sbbuf_service_some _ _ _ _ _ _ hb]
    obtain ⟨he, hst⟩ := sbbuf_refill_short data st off len (by omega) (by omega) hshort b hb
    refine ⟨overwrite b data, he, hst, ?_, ?_⟩
    · rw [List.take_length]
      exact overwrite_take _ _
    · rw [overwrite_length (by rw [hinv.sb_size b hb]; omega), hinv.sb_size b hb]

/-- C5: against a source shorter than a requested front range, the call
fails with `InsufficientData` but records the bytes actually read as valid;
a subsequent call for a sub-range fully covered by those bytes then
succeeds from cache, with no physical I/O, returning exactly those bytes. -/
theorem claim5_insufficient_then_cached (SB SEEKB : Nat) (data : List Nat) (st : VolumeId)
    (off len off2 len2 : Nat) (hSB : SB < U32) (hinv : Inv SB SEEKB data st)
    (hfr : off + len ≤ SB) (hshort : data.length < off + len)
    (hsub : off2 + len2 ≤ data.length) :
    (volume_id_get_buffer (pureSrc data) SB SEEKB st off len).1 =
      Except.error CacheError.insufficientData ∧
    (volume_id_get_buffer (pureSrc data) SB SEEKB st off len).2.1.sbbuf_len = data.length ∧
    (volume_id_get_buffer (pureSrc data) SB SEEKB
        (volume_id_get_buffer (pureSrc data) SB SEEKB st off len).2.1 off2 len2).2.2 = [] ∧
    ∃ v, (volume_id_get_buffer (pureSrc data) SB SEEKB
            (volume_id_get_buffer (pureSrc data) SB SEEKB st off len).2.1 off2 len2).1 =
          Except.ok v ∧
      viewBytes ((volume_id_get_buffer (pureSrc data) SB SEEKB
          (volume_id_get_buffer (pureSrc data) SB SEEKB st off len).2.1 off2 len2).2.1) v
          len2 =
        (data.drop off2).take len2 ∧
      (viewBytes ((volume_id_get_buffer (pureSrc data) SB SEEKB
          (volume_id_get_buffer (pureSrc data) SB SEEKB st off len).2.1 off2 len2).2.1) v
          len2).length = len2 := by
  have hmod : (off + len) % U64 = off + len :=
    Nat.mod_eq_of_lt (by have := U32_lt_U64; omega)
  have hmod2 : (off2 + len2) % U64 = off2 + len2 :=
    Nat.mod_eq_of_lt (by have := U32_lt_U64; omega)
  obtain ⟨b', herr, hst1, hbtake, hblen⟩ :=
    sbbuf_service_short SB SEEKB data st off len hSB hinv hfr hshort
  have hd1 := get_buffer_front (pureSrc data) SB SEEKB st off len (by omega)
  rw [hd1, hst1]
  have hcall2 := get_buffer_cached_front (pureSrc data) SB SEEKB
      { st with sbbuf := some b', sbbuf_len := data.length } off2 len2 b' rfl
      (by show (off2 + len2) % U64 ≤ SB; omega)
      (by show (off2 + len2) % U64 ≤ data.length; omega)
  rw [hcall2]
  refine ⟨herr, rfl, rfl, ⟨Region.front, off2⟩, rfl, ?_, ?_⟩
  · show (b'.drop off2).take len2 = (data.drop off2).take len2
    exact slice_agree hbtake hsub
  · show ((b'.drop off2).take len2).length = len2
    exact slice_len (by omega)

/-- Witness for C5: the spec's own example — a 10-byte source,
`get_view(0, 20)` fails with `InsufficientData`, then `get_view(0, 10)`
succeeds from cache, returning all 10 bytes without reading again. -/
theorem claim5_insufficient_then_cached_witness :
    (volume_id_get_buffer (pureSrc [1, 2, 3, 4, 5, 6, 7, 8, 9, 10]) 69632 65536 initId 0 20).1 =
      Except.error CacheError.insufficientData ∧
    (volume_id_get_buffer (pureSrc [1, 2, 3, 4, 5, 6, 7, 8, 9, 10]) 69632 65536
      initId 0 20).2.1.sbbuf_len = 10 ∧
    (volume_id_get_buffer (pureSrc [1, 2, 3, 4, 5, 6, 7, 8, 9, 10]) 69632 65536
        (volume_id_get_buffer (pureSrc [1, 2, 3, 4, 5, 6, 7, 8, 9, 10]) 69632 65536
          initId 0 20).2.1 0 10).2.2 = [] ∧
    ∃ v, (volume_id_get_buffer (pureSrc [1, 2, 3, 4, 5, 6, 7, 8, 9, 10]) 69632 65536
            (volume_id_get_buffer (pureSrc [1, 2, 3, 4, 5, 6, 7, 8, 9, 10]) 69632 65536
              initId 0 20).2.1 0 10).1 = Except.ok v ∧
      viewBytes ((volume_id_get_buffer (pureSrc [1, 2, 3, 4, 5, 6, 7, 8, 9, 10]) 69632 65536
          (volume_id_get_buffer (pureSrc [1, 2, 3, 4, 5, 6, 7, 8, 9, 10]) 69632 65536
            initId 0 20).2.1 0 10).2.1) v 10 =
        List.take 10 (List.drop 0 [1, 2, 3, 4, 5, 6, 7, 8, 9, 10]) ∧
      (viewBytes ((volume_id_get_buffer (pureSrc [1, 2, 3, 4, 5, 6, 7, 8, 9, 10]) 69632 65536
          (volume_id_get_buffer (pureSrc [1, 2, 3, 4, 5, 6, 7, 8, 9, 10]) 69632 65536
            initId 0 20).2.1 0 10).2.1) v 10).length = 10 :=
  claim5_insufficient_then_cached 69632 65536 [1, 2, 3, 4, 5, 6, 7, 8, 9, 10] initId 0 20 0 10
    (by norm_num [U32]) (inv_init _ _ _) (by norm_num) (by norm_num) (by norm_num)

/-- C6: a window refill that transfers fewer than `length` bytes fails with
`InsufficientData`, yet the window state is still updated: `window_offset`
becomes the requested offset and `valid_len` the partial transfer count. -/
theorem claim6_partial_window_refill (SB SEEKB : Nat) (data : List Nat) (st : VolumeId)
    (off len : Nat)
    (hSEEKB : SEEKB < U32) (hwin : SB < off + len) (hsum : off + len < U64)
    (hlen : len ≤ SEEKB) (hpos : 0 < len)
    (hrefill : off < st.seekbuf_off ∨
      (st.seekbuf_off + st.seekbuf_len) % U64 < (off + len) % U64)
    (hshort : data.length < off + len) :
    (volume_id_get_buffer (pureSrc data) SB SEEKB st off len).1 =
      Except.error CacheError.insufficientData ∧
    (volume_id_get_buffer (pureSrc data) SB SEEKB st off len).2.1.seekbuf_off = off ∧
    (volume_id_get_buffer (pureSrc data) SB SEEKB st off len).2.1.seekbuf_len =
      min len (data.length - off) := by
  have hmod : (off + len) % U64 = off + len := Nat.mod_eq_of_lt hsum
  have hcnt : ((data.drop off).take len).length = min len (data.length - off) := by
    rw [List.length_take, List.length_drop]
  have hcnt32 : ((data.drop off).take len).length % U32 = min len (data.length - off) := by
    rw [hcnt]
    exact Nat.mod_eq_of_lt (by omega)
  have hfail : min len (data.length - off) < len := by omega
  rw [get_buffer_window _ _ _ _ _ _ (by omega)]
  cases hb : st.seekbuf with
  | none =>
    rw [seekbuf_service_none _ _ _ _ _ hb rfl hlen]
    rw [seekbuf_refill_read data { st with seekbuf := some (List.replicate SEEKB 0) }
      off len hrefill]
    refine ⟨?_, rfl, ?_⟩
    · rw [hcnt32, if_pos hfail]
    · show ((data.drop off).take len).length % U32 = min len (data.length - off)
      exact hcnt32
  | some b =>
    rw [seekbuf_service_some _ _ _ _ _ b hb hlen]
    rw [seekbuf_refill_read data st off len hrefill]
    refine ⟨?_, rfl, ?_⟩
    · rw [hcnt32, if_pos hfail]
    · exact hcnt32

/-- Witness for C6: a 7-byte source, window request `[6, 10)` — one byte is
transferred, the window moves to offset 6 with valid length 1, and the call
fails. -/
theorem claim6_partial_window_refill_witness :
    (volume_id_get_buffer (pureSrc [0, 1, 2, 3, 4, 5, 6]) 5 8 initId 6 4).1 =
      Except.error CacheError.insufficientData ∧
    (volume_id_get_buffer (pureSrc [0, 1, 2, 3, 4, 5, 6]) 5 8 initId 6 4).2.1.seekbuf_off =
      6 ∧
    (volume_id_get_buffer (pureSrc [0, 1, 2, 3, 4, 5, 6]) 5 8 initId 6 4).2.1.seekbuf_len =
      min 4 (([0, 1, 2, 3, 4, 5, 6] : List Nat).length - 6) :=
  claim6_partial_window_refill 5 8 [0, 1, 2, 3, 4, 5, 6] initId 6 4
    (by norm_num [U32]) (by norm_num) (by norm_num [U64]) (by norm_num) (by norm_num)
    (by decide) (by norm_num)

end VolumeIdCache
